import Mathlib

/-!
Verification of the easyedit-v2 frontend session/credential core and job
polling loop, shallowly embedded from the TypeScript sources
`frontend/src/services/api.ts`, `frontend/src/contexts/AuthContext.tsx`
and the `App` polling effect.

Conventions of the embedding:
* timestamps are integers (`Int`); the JavaScript `new Date(e) <= new Date()`
  comparison becomes `e ≤ now`;
* `localStorage` is a record of the two named keys, each holding the parsed
  JSON value or `none` when the key is absent (JSON text handling and parse
  exceptions are outside the embedding; a stored record is modelled in its
  parsed form, with `Option` fields for JSON fields that may be missing);
* asynchronous code is modelled as labelled transition systems over explicit
  global states, with the single-threaded event-loop discipline made explicit:
  macrotask steps (a new 401 arriving, a network response settling a promise,
  a timer tick) are only enabled when no microtask (a caller resumable from a
  settled awaited promise) is pending.
-/

namespace Api

/-- The parsed value stored under the `easyedit_tokens` key.  Fields mirror
the JSON record written by `api.ts` / `AuthContext.tsx`; each is optional
because `isTokenExpired`, `getValidToken` and `performTokenRefresh` all guard
against the field being absent (JS falsiness checks). -/
structure StoredTokens where
  access_token : Option String
  refresh_token : Option String
  expires_at : Option Int
deriving DecidableEq, Repr

/-- The parsed value stored under the `easyedit_user` key. -/
structure UserRecord where
  user_id : String
  email : String
  role : String
  has_api_key : Bool
deriving DecidableEq, Repr

/-- The browser `localStorage`, restricted to the two keys the code uses. -/
structure Storage where
  easyedit_tokens : Option StoredTokens
  easyedit_user : Option UserRecord
deriving DecidableEq, Repr

/-- `isTokenExpired` from `api.ts`: a token with no `expires_at` is expired;
otherwise it is expired iff `new Date(expires_at) <= new Date()`,
i.e. `expires_at ≤ now`. -/
def isTokenExpired (now : Int) (t : StoredTokens) : Bool :=
  match t.expires_at with
  | none => true
  | some e => e ≤ now

/-- `getValidToken` from `api.ts`: reads `easyedit_tokens`; returns `none`
when the key is absent, the `access_token` field is absent, or the token is
expired; otherwise returns the access token. -/
def getValidToken (now : Int) (st : Storage) : Option String :=
  match st.easyedit_tokens with
  | none => none
  | some toks =>
    match toks.access_token with
    | none => none
    | some a => if isTokenExpired now toks then none else some a

/-- What the request interceptor in `api.ts` does with an outbound call:
either lets it proceed (with the `Authorization` header it attached, if any)
or rejects it before the network.  The `reject` constructor corresponds to
the interceptor's `Promise.reject` error callback. -/
inductive RequestPhase
  | proceed (auth : Option String)
  | reject
deriving DecidableEq, Repr

/-- The request interceptor from `api.ts`: attaches `Bearer <token>` when
`getValidToken` yields a token, and otherwise forwards the call unchanged —
it never rejects a call for lack of a credential. -/
def requestPhase (now : Int) (st : Storage) : RequestPhase :=
  match getValidToken now st with
  | some t => .proceed (some ("Bearer " ++ t))
  | none => .proceed none

/-- Result of the `/auth/refresh` network call made by `performTokenRefresh`. -/
inductive RefreshNet
  | ok (access : String) (refreshTok : Option String) (expires : Int)
  | err
deriving DecidableEq, Repr

/-- How `performTokenRefresh` resolves for its caller: a new access token,
`noToken` for the early `return null` paths (no stored record, or no
`refresh_token` field), or `threw` when the network call rejected and the
error was rethrown. -/
inductive RefreshResult
  | token (t : String)
  | noToken
  | threw
deriving DecidableEq, Repr

/-- `performTokenRefresh` from `api.ts`.  Returns the caller-visible result
together with the storage after the call.  On the thrown path both storage
keys are removed; on the early `return null` paths storage is untouched; on
success the new token record is written (keeping the old refresh token when
the response omits one) and the user key is untouched. -/
def performTokenRefresh (st : Storage) (net : RefreshNet) : RefreshResult × Storage :=
  match st.easyedit_tokens with
  | none => (.noToken, st)
  | some toks =>
    match toks.refresh_token with
    | none => (.noToken, st)
    | some rt =>
      match net with
      | .ok a r e =>
        (.token a,
         { st with easyedit_tokens := some ⟨some a, some (r.getD rt), some e⟩ })
      | .err => (.threw, ⟨none, none⟩)

/-- Modelled from the spec (§4.2): `getUsableAccessToken` as the spec words
it — return the stored access token if valid, otherwise trigger a refresh
and return its result, or absent if the refresh fails.  `refreshOutcome` is
the result the triggered refresh would produce.  This definition follows the
spec, not the source; it exists to be compared with `getValidToken`. -/
def specGetUsableAccessToken (now : Int) (st : Storage)
    (refreshOutcome : Option String) : Option String :=
  match getValidToken now st with
  | some t => some t
  | none => refreshOutcome

/-- The action the response interceptor in `api.ts` takes on an error:
re-issue the original request with a fresh `Bearer` token, reload the page
and then reject with the original error (the `newToken === null` and the
`catch (refreshError)` paths both fall through to `Promise.reject(error)`),
or just reject with the original error. -/
inductive ErrAction
  | retryWith (token : String)
  | reloadAndReject
  | reject
deriving DecidableEq, Repr

/-- Outcome of one run of the response interceptor's error handler: the value
of the request's `_retry` flag afterwards, and the action taken. -/
structure ErrOutcome where
  retried : Bool
  action : ErrAction
deriving DecidableEq, Repr

/-- The response interceptor's error handler from `api.ts`.  `is401` is
whether `error.response?.status === 401`; `retryFlag` is the incoming
`originalRequest._retry`; `refresh` is what awaiting the (shared) refresh
promise produces.  When the guard `is401 && !_retry` holds the request is
first marked `_retry = true`, then: a new token leads to a retry with that
token; a `null` token or a thrown refresh leads to a page reload followed by
rejection.  Otherwise the error is rejected unchanged. -/
def handleResponseError (is401 retryFlag : Bool) (refresh : RefreshResult) :
    ErrOutcome :=
  if is401 && !retryFlag then
    match refresh with
    | .token t => ⟨true, .retryWith t⟩
    | .noToken => ⟨true, .reloadAndReject⟩
    | .threw => ⟨true, .reloadAndReject⟩
  else ⟨retryFlag, .reject⟩

/-- Transport-level result of one attempt of a business call. -/
inductive CallResult
  | ok
  | unauthorized
  | otherError
deriving DecidableEq, Repr

/-- Caller-visible end of a gateway call. -/
inductive FinalOutcome
  | success
  | rejected
  | reloadRejected
deriving DecidableEq, Repr

/-- Trace of one business call through the interceptor: how many network
attempts were made, the token the retry (if any) was re-issued with, and the
final outcome. -/
structure GatewayTrace where
  attempts : Nat
  retriedWith : Option String
  final : FinalOutcome
deriving DecidableEq, Repr

/-- A business call driven through the response interceptor of `api.ts`:
`first` is the result of the initial attempt, `refresh` the outcome of the
token refresh (consulted only on a 401), `second` the result of the retried
attempt (consulted only when a retry is issued).  The retried request
carries `_retry = true`, so a second 401 goes through `handleResponseError`
again with the flag set.  The model leaves a syntactic third attempt in
place so that the retry-once bound is a proved property, not a baked-in
one. -/
def gatewayCall (first second : CallResult) (refresh : RefreshResult) :
    GatewayTrace :=
  match first with
  | .ok => ⟨1, none, .success⟩
  | .otherError => ⟨1, none, .rejected⟩
  | .unauthorized =>
    let h1 := handleResponseError true false refresh
    match h1.action with
    | .retryWith t =>
      match second with
      | .ok => ⟨2, some t, .success⟩
      | .otherError => ⟨2, some t, .rejected⟩
      | .unauthorized =>
        match (handleResponseError true h1.retried refresh).action with
        | .retryWith t2 => ⟨3, some t2, .success⟩
        | .reloadAndReject => ⟨2, some t, .reloadRejected⟩
        | .reject => ⟨2, some t, .rejected⟩
    | .reloadAndReject => ⟨1, none, .reloadRejected⟩
    | .reject => ⟨1, none, .rejected⟩

/-- Storage with an expired credential (expiry 50, observed at time 100)
whose refresh token is present: input for the token-lookup counterexample. -/
def stC3 : Storage := ⟨some ⟨some "old", some "r", some 50⟩, none⟩

/-- Storage with a valid credential at time 100: witness input. -/
def stC3v : Storage := ⟨some ⟨some "tok", some "r", some 200⟩, none⟩

/-- Storage holding a credential record with no `refresh_token` field next
to a present identity record: input for the session-clear counterexample.
The login flow stores `tokenResponse.data.refresh_token` verbatim, so a
token-issuance response without that field produces exactly this record. -/
def stC4 : Storage :=
  ⟨some ⟨some "a", none, some 100⟩, some ⟨"u1", "u@e", "admin", true⟩⟩

/-- Storage with a full credential record and identity record: input for the
thrown-refresh witness. -/
def stC4w : Storage :=
  ⟨some ⟨some "a", some "r", some 100⟩, some ⟨"u1", "u@e", "admin", true⟩⟩

/-- Storage after a session clear: both keys absent. -/
def stC9 : Storage := ⟨none, none⟩

end Api

namespace Auth

/-- `AuthTokens` from `AuthContext.tsx` (all three fields present in the
parsed record the context works with). -/
structure AuthTokens where
  access_token : String
  refresh_token : String
  expires_at : Int
deriving DecidableEq, Repr

/-- `User` from `AuthContext.tsx`. -/
structure User where
  user_id : String
  email : String
  role : String
  has_api_key : Bool
deriving DecidableEq, Repr

/-- The React state held by `AuthProvider`: `tokens`, `user`, `error`,
`isLoading`. -/
structure AuthState where
  tokens : Option AuthTokens
  user : Option User
  error : Option String
  isLoading : Bool
deriving DecidableEq, Repr

/-- `localStorage` as `AuthContext.tsx` sees it: the two keys in their
parsed form. -/
structure AuthStorage where
  tokens : Option AuthTokens
  user : Option User
deriving DecidableEq, Repr

/-- The mount-time `useEffect` of `AuthProvider`: restore the session from
storage only when both keys are present and `new Date(expires_at) > new
Date()` holds; an already-expired credential is removed from storage instead
of being restored.  Returns the resulting state and storage. -/
def loadSession (now : Int) (st : AuthStorage) : AuthState × AuthStorage :=
  match st.tokens, st.user with
  | some toks, some u =>
    if now < toks.expires_at then
      ({ tokens := some toks, user := some u, error := none, isLoading := false }, st)
    else
      ({ tokens := none, user := none, error := none, isLoading := false },
       ⟨none, none⟩)
  | _, _ =>
    ({ tokens := none, user := none, error := none, isLoading := false }, st)

/-- Result of a network call in the login flow. -/
inductive NetResult (α : Type)
  | ok (a : α)
  | err (msg : String)
deriving DecidableEq, Repr

/-- The two network dependencies of `login`: the `/auth/demo-token` call and
the `/auth/verify` call (the latter authorized with the token just
issued). -/
structure LoginEnv where
  demoToken : NetResult AuthTokens
  verify : AuthTokens → NetResult User

/-- `login` from `AuthContext.tsx`.  Sets `isLoading`/clears `error`, then
awaits the token issuance and the identity verification; only after both
succeed does it write tokens and user to state and to storage.  Any failure
lands in the `catch`, which records the error message and leaves state and
storage untouched. -/
def login (env : LoginEnv) (s : AuthState) (st : AuthStorage) :
    AuthState × AuthStorage :=
  let s0 : AuthState := { s with isLoading := true, error := none }
  match env.demoToken with
  | .err m => ({ s0 with error := some m, isLoading := false }, st)
  | .ok newToks =>
    match env.verify newToks with
    | .err m => ({ s0 with error := some m, isLoading := false }, st)
    | .ok u =>
      ({ s0 with tokens := some newToks, user := some u, isLoading := false },
       ⟨some newToks, some u⟩)

/-- `logout` from `AuthContext.tsx`: clears tokens, user and error in state
and removes both storage keys. -/
def logout (s : AuthState) (_st : AuthStorage) : AuthState × AuthStorage :=
  ({ s with tokens := none, user := none, error := none }, ⟨none, none⟩)

/-- The login flow fails: either the token issuance fails, or it succeeds
and the identity verification fails. -/
def loginFails (env : LoginEnv) : Prop :=
  (∃ m, env.demoToken = NetResult.err m) ∨
  (∃ toks m, env.demoToken = NetResult.ok toks ∧
      env.verify toks = NetResult.err m)

/-- A login environment whose token issuance fails: witness input. -/
def envFail : LoginEnv := ⟨NetResult.err "boom", fun _ => NetResult.err "off"⟩

end Auth

namespace SingleFlight

/-!
Event-loop model of the module-level `refreshPromise` single-flight protocol
in `api.ts`.  Each caller is one execution of the response interceptor that
has entered the `401 && !_retry` branch.  The code between checking
`refreshPromise`, assigning `refreshPromise = performTokenRefresh()` and
reaching `await refreshPromise` contains no suspension point, so it is one
atomic step; issuing the refresh network call happens inside that step
(`performTokenRefresh` runs synchronously up to its first `await`).
Each issued network refresh call is one entry of `promises`; `none` marks a
call still outstanding.  When a promise settles, its awaiting callers resume
as microtasks: every resumption executes `refreshPromise = null` (the
success path and the `catch` path both do), and the JavaScript event loop
runs all pending microtasks before the next macrotask, so macrotask steps
(a new 401 entering the handler, a network call settling) are only enabled
while no caller is resumable.
-/

/-- How one refresh settles for its awaiters: a new access token, or a
failure (`null` token or rejection). -/
inductive Outcome
  | token (t : String)
  | failed
deriving DecidableEq, Repr

/-- Program counter of one interceptor execution: not yet at the refresh
block, suspended on `await refreshPromise` (with the id of the awaited
promise), or finished with the outcome it observed from that promise. -/
inductive CallerSt
  | start
  | awaiting (p : Nat)
  | done (p : Nat) (o : Outcome)
deriving DecidableEq, Repr

/-- Global state: the refresh network calls issued so far (`none` =
outstanding, `some o` = settled with `o`), the module-level `refreshPromise`
variable (an id into `promises`, or `null`), and the callers. -/
structure GState where
  promises : List (Option Outcome)
  refreshPromise : Option Nat
  callers : List CallerSt
deriving DecidableEq, Repr

/-- Whether promise `p` of `s` is settled. -/
def settledAt (s : GState) (p : Nat) : Bool :=
  match s.promises[p]? with
  | some (some _) => true
  | _ => false

/-- A microtask is pending: some caller awaits an already-settled promise. -/
def resumableB (s : GState) : Bool :=
  s.callers.any fun c =>
    match c with
    | .awaiting p => settledAt s p
    | _ => false

/-- Transition labels: a caller entering the refresh block, a network refresh
call settling, a caller resuming from its `await`. -/
inductive Label
  | enter (i : Nat)
  | settle (p : Nat) (o : Outcome)
  | resume (i : Nat)
deriving DecidableEq, Repr

/-- One step of the event-loop model.  `enter` and `settle` are macrotask
steps, enabled only when no microtask is pending; `resume` is the microtask
of a caller whose awaited promise has settled, and it unconditionally
executes `refreshPromise = null` (as both the success and the `catch` paths
of the interceptor do). -/
inductive Step : Label → GState → GState → Prop
  | enterJoin (s : GState) (i p : Nat) :
      s.callers[i]? = some .start →
      resumableB s = false →
      s.refreshPromise = some p →
      Step (.enter i) s { s with callers := s.callers.set i (.awaiting p) }
  | enterCreate (s : GState) (i : Nat) :
      s.callers[i]? = some .start →
      resumableB s = false →
      s.refreshPromise = none →
      Step (.enter i) s
        { promises := s.promises ++ [none],
          refreshPromise := some s.promises.length,
          callers := s.callers.set i (.awaiting s.promises.length) }
  | settle (s : GState) (p : Nat) (o : Outcome) :
      s.promises[p]? = some none →
      resumableB s = false →
      Step (.settle p o) s { s with promises := s.promises.set p (some o) }
  | resume (s : GState) (i p : Nat) (o : Outcome) :
      s.callers[i]? = some (.awaiting p) →
      s.promises[p]? = some (some o) →
      Step (.resume i) s
        { promises := s.promises,
          refreshPromise := none,
          callers := s.callers.set i (.done p o) }

/-- Some step with some label. -/
def Steps (s s' : GState) : Prop := ∃ l, Step l s s'

/-- Initial state for `n` concurrent callers that all need a refresh: no
network call issued yet, `refreshPromise = null`, every caller before the
refresh block. -/
def init (n : Nat) : GState :=
  ⟨[], none, List.replicate n .start⟩

/-- States reachable from `init n`. -/
def Reachable (n : Nat) (s : GState) : Prop :=
  Relation.ReflTransGen Steps (init n) s

/-- Inductive invariant of the single-flight protocol:
1. every outstanding network call is the one `refreshPromise` points at;
2. `refreshPromise`, when set, points into `promises` and has an awaiting
   caller;
3. awaited promise ids are in range;
4. no caller awaits a settled promise while a network call is outstanding;
5. a finished caller's recorded outcome is the settled value of the promise
   it awaited. -/
def Inv (s : GState) : Prop :=
  (∀ p : Nat, s.promises[p]? = some none → s.refreshPromise = some p) ∧
  (∀ p : Nat, s.refreshPromise = some p →
      p < s.promises.length ∧
      ∃ i : Nat, s.callers[i]? = some (CallerSt.awaiting p)) ∧
  (∀ i p : Nat, s.callers[i]? = some (CallerSt.awaiting p) →
      p < s.promises.length) ∧
  (∀ (i p : Nat) (o : Outcome) (q : Nat),
      s.callers[i]? = some (CallerSt.awaiting p) →
      s.promises[p]? = some (some o) → s.promises[q]? = some none → False) ∧
  (∀ (i p : Nat) (o : Outcome), s.callers[i]? = some (CallerSt.done p o) →
      s.promises[p]? = some (some o))

/-- Concrete two-caller run of the single-flight protocol: caller 0 creates
the refresh, caller 1 joins it, the network call settles with a token, both
callers resume.  Intermediate states of the run, used as the witness input
for the single-flight theorem. -/
def wit0 : GState := ⟨[], none, [CallerSt.start, CallerSt.start]⟩

def wit1 : GState := ⟨[none], some 0, [CallerSt.awaiting 0, CallerSt.start]⟩

def wit2 : GState :=
  ⟨[none], some 0, [CallerSt.awaiting 0, CallerSt.awaiting 0]⟩

def wit3 : GState :=
  ⟨[some (Outcome.token "T")], some 0,
   [CallerSt.awaiting 0, CallerSt.awaiting 0]⟩

def wit4 : GState :=
  ⟨[some (Outcome.token "T")], none,
   [CallerSt.done 0 (Outcome.token "T"), CallerSt.awaiting 0]⟩

def wit5 : GState :=
  ⟨[some (Outcome.token "T")], none,
   [CallerSt.done 0 (Outcome.token "T"), CallerSt.done 0 (Outcome.token "T")]⟩

end SingleFlight

namespace Polling

/-!
Model of the job-status polling `useEffect` in `App.tsx` (dependency list
`[currentJob]`).  The effect body starts a 2-second `setInterval` whenever
the current job's status is `processing` or `uploaded`; the cleanup clears
the interval id captured by the effect closure.  Each interval tick runs
`api.getJobStatus(currentJob.job_id)` — an `await`, so the fetch is issued
at the tick and delivered later.  A successful delivery runs
`setCurrentJob(updatedJob)` (always a fresh object, so the effect re-runs:
cleanup, then body) and, when the fetched status is terminal, also
`setIsPolling(false)` and `loadJobHistory()` — the one-time job-finished
signal.  A failed delivery only logs.  React runs the cleanup/effect pair
for a committed state update before a 2-second timer can fire again, so the
effect cycle is folded atomically into each `setCurrentJob`.  Fetches
already in flight are not cancelled by the cleanup — only the timer is.
-/

/-- Job status values from `types.ts` as used by `App.tsx`. -/
inductive Status
  | uploaded
  | processing
  | completed
  | failed
deriving DecidableEq, Repr

/-- The terminal check of the tick handler:
`status === 'completed' || status === 'failed'`. -/
def isTerminal : Status → Bool
  | .completed => true
  | .failed => true
  | _ => false

/-- The effect-body guard:
`currentJob && (status === 'processing' || status === 'uploaded')`. -/
def shouldPoll : Option (String × Status) → Bool
  | some (_, .processing) => true
  | some (_, .uploaded) => true
  | _ => false

/-- State of the polling subsystem: fresh-handle counter, active intervals
(handle, job id), the interval id captured by the current effect closure
(cleared by the cleanup), outstanding status fetches (tag, job id),
fresh-fetch-tag counter, the observed `currentJob`, and how many times the
terminal branch has fired `loadJobHistory`. -/
structure PState where
  nextH : Nat
  intervals : List (Nat × String)
  cleanupHandle : Option Nat
  inflight : List (Nat × String)
  nextF : Nat
  currentJob : Option (String × Status)
  signals : Nat
deriving DecidableEq, Repr

/-- `clearInterval(intervalId)` for the id held by the effect closure. -/
def clearIntervalH (l : List (Nat × String)) (h : Option Nat) :
    List (Nat × String) :=
  match h with
  | none => l
  | some hh => l.filter (fun x => x.1 ≠ hh)

/-- One cleanup-then-body cycle of the polling effect: clear the interval the
closure owns, then start a fresh interval iff the (new) current job should be
polled. -/
def effectCycle (s : PState) : PState :=
  let cleared := clearIntervalH s.intervals s.cleanupHandle
  match s.currentJob with
  | some (j, st) =>
    if st = Status.processing ∨ st = Status.uploaded then
      { s with intervals := cleared ++ [(s.nextH, j)],
               cleanupHandle := some s.nextH,
               nextH := s.nextH + 1 }
    else { s with intervals := cleared, cleanupHandle := none }
  | none => { s with intervals := cleared, cleanupHandle := none }

/-- Transition labels: an interval tick issuing a status fetch, a fetch
delivering a status, a fetch failing (network error), and the UI observing a
new job (`setCurrentJob(initialJob)` from `handleUploadAndProcess`, status
`uploaded`). -/
inductive PLabel
  | tick (h : Nat)
  | deliverOk (f : Nat) (st : Status)
  | deliverErr (f : Nat)
  | setJob (j : String)
deriving DecidableEq, Repr

/-- One step of the polling model.  `deliverOk` removes the fetch, updates
`currentJob`, bumps the signal count when the fetched status is terminal,
and runs the effect cycle (the state changed).  `deliverErr` is the `catch`:
it only logs, so nothing but the in-flight set changes and the effect does
not re-run.  `setJob` sets the new job and runs the effect cycle. -/
inductive PStep : PLabel → PState → PState → Prop
  | tick (s : PState) (h : Nat) (j : String) :
      (h, j) ∈ s.intervals →
      PStep (.tick h) s
        { s with inflight := s.inflight ++ [(s.nextF, j)],
                 nextF := s.nextF + 1 }
  | deliverOk (s : PState) (f : Nat) (j : String) (st : Status) :
      (f, j) ∈ s.inflight →
      PStep (.deliverOk f st) s
        (effectCycle
          { s with inflight := s.inflight.filter (fun x => x.1 ≠ f),
                   currentJob := some (j, st),
                   signals :=
                     if isTerminal st then s.signals + 1 else s.signals })
  | deliverErr (s : PState) (f : Nat) (j : String) :
      (f, j) ∈ s.inflight →
      PStep (.deliverErr f) s
        { s with inflight := s.inflight.filter (fun x => x.1 ≠ f) }
  | setJob (s : PState) (j : String) :
      PStep (.setJob j) s
        (effectCycle { s with currentJob := some (j, Status.uploaded) })

/-- Some polling step with some label. -/
def PSteps (s s' : PState) : Prop := ∃ l, PStep l s s'

/-- Initial state: no job observed, no interval, nothing in flight. -/
def initP : PState := ⟨0, [], none, [], 0, none, 0⟩

/-- States reachable from `initP`. -/
def PReachable (s : PState) : Prop := Relation.ReflTransGen PSteps initP s

/-- Invariant of the effect discipline: either no interval is active, or
exactly one is and it is the one the current effect closure owns. -/
def PollInv (s : PState) : Prop :=
  s.intervals = [] ∨
  ∃ (h : Nat) (j : String),
    s.intervals = [(h, j)] ∧ s.cleanupHandle = some h

/-- States of a concrete run refuting the exactly-once job-finished signal:
job A is polled, two ticks fire while the first fetch is still in flight
(a status fetch may take longer than the 2-second cadence; the transport
timeout is 5 minutes), and both fetches deliver `completed`. -/
def c5s0 : PState := initP

def c5s1 : PState :=
  ⟨1, [(0, "A")], some 0, [], 0, some ("A", Status.uploaded), 0⟩

def c5s2 : PState :=
  ⟨1, [(0, "A")], some 0, [(0, "A")], 1, some ("A", Status.uploaded), 0⟩

def c5s3 : PState :=
  ⟨1, [(0, "A")], some 0, [(0, "A"), (1, "A")], 2,
   some ("A", Status.uploaded), 0⟩

def c5s4 : PState :=
  ⟨1, [], none, [(1, "A")], 2, some ("A", Status.completed), 1⟩

def c5s5 : PState :=
  ⟨1, [], none, [], 2, some ("A", Status.completed), 2⟩

/-- States of a concrete run refuting stale-tick-free job replacement: job A
is polled, a tick issues a fetch, the user starts job B (A's interval is
cancelled, B's starts), then A's in-flight fetch delivers and overwrites the
observed job. -/
def c6s0 : PState := initP

def c6s1 : PState :=
  ⟨1, [(0, "A")], some 0, [], 0, some ("A", Status.uploaded), 0⟩

def c6s2 : PState :=
  ⟨1, [(0, "A")], some 0, [(0, "A")], 1, some ("A", Status.uploaded), 0⟩

def c6s3 : PState :=
  ⟨2, [(1, "B")], some 1, [(0, "A")], 1, some ("B", Status.uploaded), 0⟩

def c6s4 : PState :=
  ⟨3, [(2, "A")], some 2, [], 1, some ("A", Status.processing), 0⟩

/-- A polling state with one active interval and one in-flight fetch for job
A, and its successor after that fetch fails: input for the transient-error
witness. -/
def c8s1 : PState :=
  ⟨1, [(0, "A")], some 0, [(0, "A")], 1, some ("A", Status.uploaded), 0⟩

def c8s2 : PState :=
  ⟨1, [(0, "A")], some 0, [], 1, some ("A", Status.uploaded), 0⟩

end Polling

namespace SingleFlight

lemma resumable_of_awaiting (s : GState) (i p : Nat) (o : Outcome)
    (hc : s.callers[i]? = some (CallerSt.awaiting p))
    (hp : s.promises[p]? = some (some o)) : resumableB s = true := by
  have hm : CallerSt.awaiting p ∈ s.callers := List.getElem?_mem hc
  refine List.any_of_mem hm ?_
  simp [settledAt, hp]

lemma inv_init (n : Nat) : Inv (init n) := by
  refine ⟨?_, ?_, ?_, ?_, ?_⟩
  · intro p h
    simp [init] at h
  · intro p h
    simp [init] at h
  · intro i p h
    simp only [init, List.getElem?_replicate] at h
    split at h
    · simp at h
    · simp at h
  · intro i p o q hc hp
    simp only [init, List.getElem?_replicate] at hc
    split at hc
    · simp at hc
    · simp at hc
  · intro i p o hc
    simp only [init, List.getElem?_replicate] at hc
    split at hc
    · simp at hc
    · simp at hc

lemma inv_step {l : Label} {s s' : GState} (hs : Inv s) (hstep : Step l s s') :
    Inv s' := by
  obtain ⟨h1, h2, h3, h4, h5⟩ := hs
  cases hstep with
  | enterJoin s i p₀ hci hres hrp =>
    have hilt : i < s.callers.length := (List.getElem?_eq_some.mp hci).1
    refine ⟨h1, ?_, ?_, ?_, ?_⟩
    · intro p hp
      have : p = p₀ := by
        rw [hrp] at hp
        exact (Option.some_injective _ hp.symm)
      subst this
      refine ⟨(h2 p hrp).1, ⟨i, ?_⟩⟩
      simpa using List.getElem?_set_self (a := CallerSt.awaiting p) hilt
    · intro j p hc
      by_cases hji : i = j
      · subst hji
        rw [List.getElem?_set_self hilt] at hc
        have : CallerSt.awaiting p₀ = CallerSt.awaiting p := by
          exact Option.some_injective _ hc
        cases this
        exact (h2 p₀ hrp).1
      · rw [List.getElem?_set_ne hji] at hc
        exact h3 j p hc
    · intro j p o q hc hp hq
      by_cases hji : i = j
      · subst hji
        rw [List.getElem?_set_self hilt] at hc
        have hpp : CallerSt.awaiting p₀ = CallerSt.awaiting p :=
          Option.some_injective _ hc
        cases hpp
        have hq' : s.refreshPromise = some q := h1 q hq
        rw [hrp] at hq'
        have : p₀ = q := Option.some_injective _ hq'
        subst this
        rw [hp] at hq
        simp at hq
      · rw [List.getElem?_set_ne hji] at hc
        exact h4 j p o q hc hp hq
    · intro j p o hc
      by_cases hji : i = j
      · subst hji
        rw [List.getElem?_set_self hilt] at hc
        simp at hc
      · rw [List.getElem?_set_ne hji] at hc
        exact h5 j p o hc
  | enterCreate s i hci hres hrp =>
    have hilt : i < s.callers.length := (List.getElem?_eq_some.mp hci).1
    refine ⟨?_, ?_, ?_, ?_, ?_⟩
    · intro p hp
      have hlen : p < s.promises.length + 1 := by
        have := (List.getElem?_eq_some.mp hp).1
        simpa using this
      rcases Nat.lt_succ_iff_lt_or_eq.mp hlen with hlt | heq
      · rw [List.getElem?_append_left hlt] at hp
        have := h1 p hp
        rw [hrp] at this
        simp at this
      · subst heq
        rfl
    · intro p hp
      have hpeq : s.promises.length = p := Option.some_injective _ hp
      subst hpeq
      refine ⟨by simp, ⟨i, ?_⟩⟩
      simpa using
        List.getElem?_set_self (a := CallerSt.awaiting s.promises.length) hilt
    · intro j p hc
      by_cases hji : i = j
      · subst hji
        rw [List.getElem?_set_self hilt] at hc
        have : CallerSt.awaiting s.promises.length = CallerSt.awaiting p :=
          Option.some_injective _ hc
        cases this
        simp
      · rw [List.getElem?_set_ne hji] at hc
        have := h3 j p hc
        simp
        omega
    · intro j p o q hc hp hq
      by_cases hji : i = j
      · subst hji
        rw [List.getElem?_set_self hilt] at hc
        have : CallerSt.awaiting s.promises.length = CallerSt.awaiting p :=
          Option.some_injective _ hc
        cases this
        rw [List.getElem?_concat_length] at hp
        simp at hp
      · rw [List.getElem?_set_ne hji] at hc
        have hplt : p < s.promises.length := h3 j p hc
        rw [List.getElem?_append_left hplt] at hp
        have := resumable_of_awaiting s j p o hc hp
        rw [hres] at this
        simp at this
    · intro j p o hc
      by_cases hji : i = j
      · subst hji
        rw [List.getElem?_set_self hilt] at hc
        simp at hc
      · rw [List.getElem?_set_ne hji] at hc
        have hp := h5 j p o hc
        have hplt : p < s.promises.length := (List.getElem?_eq_some.mp hp).1
        rw [List.getElem?_append_left hplt]
        exact hp
  | settle s p₀ o₀ hp₀ hres =>
    have hplt : p₀ < s.promises.length := (List.getElem?_eq_some.mp hp₀).1
    refine ⟨?_, ?_, ?_, ?_, ?_⟩
    · intro p hp
      by_cases hpp : p₀ = p
      · subst hpp
        rw [List.getElem?_set_self hplt] at hp
        simp at hp
      · rw [List.getElem?_set_ne hpp] at hp
        exact h1 p hp
    · intro p hp
      refine ⟨?_, (h2 p hp).2⟩
      have := (h2 p hp).1
      simpa using this
    · intro j p hc
      have := h3 j p hc
      simpa using this
    · intro j p o q hc hp hq
      by_cases hqq : p₀ = q
      · subst hqq
        rw [List.getElem?_set_self hplt] at hq
        simp at hq
      · rw [List.getElem?_set_ne hqq] at hq
        have hq' := h1 q hq
        have hp' := h1 p₀ hp₀
        rw [hq'] at hp'
        exact hqq (Option.some_injective _ hp').symm
    · intro j p o hc
      have hp := h5 j p o hc
      by_cases hpp : p₀ = p
      · subst hpp
        rw [hp₀] at hp
        simp at hp
      · rw [List.getElem?_set_ne hpp]
        exact hp
  | resume s i p₀ o₀ hci hp₀ =>
    have hilt : i < s.callers.length := (List.getElem?_eq_some.mp hci).1
    refine ⟨?_, ?_, ?_, ?_, ?_⟩
    · intro p hp
      exact absurd hp (fun hp => h4 i p₀ o₀ p hci hp₀ hp)
    · intro p hp
      simp at hp
    · intro j p hc
      by_cases hji : i = j
      · subst hji
        rw [List.getElem?_set_self hilt] at hc
        simp at hc
      · rw [List.getElem?_set_ne hji] at hc
        exact h3 j p hc
    · intro j p o q hc hp hq
      by_cases hji : i = j
      · subst hji
        rw [List.getElem?_set_self hilt] at hc
        simp at hc
      · rw [List.getElem?_set_ne hji] at hc
        exact h4 j p o q hc hp hq
    · intro j p o hc
      by_cases hji : i = j
      · subst hji
        rw [List.getElem?_set_self hilt] at hc
        have : CallerSt.done p₀ o₀ = CallerSt.done p o :=
          Option.some_injective _ hc
        cases this
        exact hp₀
      · rw [List.getElem?_set_ne hji] at hc
        exact h5 j p o hc

lemma reachable_inv {n : Nat} {s : GState} (h : Reachable n s) : Inv s := by
  induction h with
  | refl => exact inv_init n
  | tail _ hstep ih =>
    obtain ⟨l, hl⟩ := hstep
    exact inv_step ih hl

lemma wit_reach : Reachable 2 wit5 := by
  have r0 : Reachable 2 wit0 := Relation.ReflTransGen.refl
  have s01 : Step (Label.enter 0) wit0 wit1 :=
    Step.enterCreate wit0 0 rfl rfl rfl
  have s12 : Step (Label.enter 1) wit1 wit2 :=
    Step.enterJoin wit1 1 0 rfl rfl rfl
  have s23 : Step (Label.settle 0 (Outcome.token "T")) wit2 wit3 :=
    Step.settle wit2 0 (Outcome.token "T") rfl rfl
  have s34 : Step (Label.resume 0) wit3 wit4 :=
    Step.resume wit3 0 0 (Outcome.token "T") rfl rfl
  have s45 : Step (Label.resume 1) wit4 wit5 :=
    Step.resume wit4 1 0 (Outcome.token "T") rfl rfl
  exact ((((r0.tail ⟨_, s01⟩).tail ⟨_, s12⟩).tail ⟨_, s23⟩).tail
    ⟨_, s34⟩).tail ⟨_, s45⟩
end SingleFlight

namespace Polling

lemma clear_own (s : PState) (hinv : PollInv s) :
    clearIntervalH s.intervals s.cleanupHandle = [] := by
  rcases hinv with h | ⟨h, j, hi, hc⟩
  · rw [h]
    cases s.cleanupHandle <;> simp [clearIntervalH]
  · rw [hi, hc]
    simp [clearIntervalH]

lemma pollInv_effectCycle (s : PState) (hinv : PollInv s) :
    PollInv (effectCycle s) := by
  unfold effectCycle
  have hcl := clear_own s hinv
  cases hj : s.currentJob with
  | none =>
    left
    simpa using hcl
  | some p =>
    obtain ⟨j, st⟩ := p
    by_cases hst : st = Status.processing ∨ st = Status.uploaded
    · right
      refine ⟨s.nextH, j, ?_, ?_⟩ <;> simp [hst, hcl]
    · left
      simpa [hst] using hcl

lemma pollInv_step {l : PLabel} {s s' : PState} (hinv : PollInv s)
    (hstep : PStep l s s') : PollInv s' := by
  cases hstep with
  | tick s h j hm => exact hinv
  | deliverOk s f j st hm =>
    apply pollInv_effectCycle
    exact hinv
  | deliverErr s f j hm => exact hinv
  | setJob s j =>
    apply pollInv_effectCycle
    exact hinv

lemma pollInv_reachable {s : PState} (h : PReachable s) : PollInv s := by
  induction h with
  | refl => left; rfl
  | tail _ hstep ih =>
    obtain ⟨l, hl⟩ := hstep
    exact pollInv_step ih hl

lemma c5_reach3 : PReachable c5s3 := by
  have r0 : PReachable c5s0 := Relation.ReflTransGen.refl
  have s01 : PStep (PLabel.setJob "A") c5s0 c5s1 := PStep.setJob c5s0 "A"
  have s12 : PStep (PLabel.tick 0) c5s1 c5s2 :=
    PStep.tick c5s1 0 "A" (by simp [c5s1])
  have s23 : PStep (PLabel.tick 0) c5s2 c5s3 :=
    PStep.tick c5s2 0 "A" (by simp [c5s2])
  exact ((r0.tail ⟨_, s01⟩).tail ⟨_, s12⟩).tail ⟨_, s23⟩

lemma c5_reach4 : PReachable c5s4 :=
  c5_reach3.tail
    ⟨_, PStep.deliverOk c5s3 0 "A" Status.completed (by simp [c5s3])⟩

lemma c6_reach2 : PReachable c6s2 := by
  have r0 : PReachable c6s0 := Relation.ReflTransGen.refl
  have s01 : PStep (PLabel.setJob "A") c6s0 c6s1 := PStep.setJob c6s0 "A"
  have s12 : PStep (PLabel.tick 0) c6s1 c6s2 :=
    PStep.tick c6s1 0 "A" (by simp [c6s1])
  exact (r0.tail ⟨_, s01⟩).tail ⟨_, s12⟩

lemma c6_reach3 : PReachable c6s3 :=
  c6_reach2.tail ⟨_, PStep.setJob c6s2 "B"⟩

end Polling

namespace SingleFlight

/-- C1: In every reachable state of the single-flight refresh protocol of
`api.ts`, at most one refresh network call is outstanding (any two
outstanding entries coincide); all callers that finished on the same refresh
episode (the same promise) observed the same outcome; a caller entering the
401 branch while the shared pending-refresh reference is set issues no new
network call (the issued-call list is unchanged, so exactly the one call of
the episode's creator exists); and every caller resumption after the awaited
refresh settles clears the shared `refreshPromise` reference. -/
theorem C1_single_flight (n : Nat) (s : GState) (h : Reachable n s) :
    (∀ p q : Nat, s.promises[p]? = some none → s.promises[q]? = some none →
        p = q) ∧
    (∀ (i j p : Nat) (o o' : Outcome),
        s.callers[i]? = some (CallerSt.done p o) →
        s.callers[j]? = some (CallerSt.done p o') → o = o') ∧
    (∀ (i : Nat) (s' : GState), s.refreshPromise.isSome = true →
        Step (Label.enter i) s s' → s'.promises = s.promises) ∧
    (∀ (i : Nat) (s' : GState), Step (Label.resume i) s s' →
        s'.refreshPromise = none) := by
  obtain ⟨h1, h2, h3, h4, h5⟩ := reachable_inv h
  refine ⟨?_, ?_, ?_, ?_⟩
  · intro p q hp hq
    have e1 := h1 p hp
    have e2 := h1 q hq
    rw [e1] at e2
    exact Option.some_injective _ e2
  · intro i j p o o' hi hj
    have e1 := h5 i p o hi
    have e2 := h5 j p o' hj
    rw [e1] at e2
    exact Option.some_injective _ (Option.some_injective _ e2)
  · intro i s' hsome hstep
    cases hstep with
    | enterJoin _ _ p hci hres hrp => rfl
    | enterCreate _ _ hci hres hrp =>
      rw [hrp] at hsome
      simp at hsome
  · intro i s' hstep
    cases hstep with
    | resume _ _ p o hci hp => rfl

/-- C1 witness: the single-flight theorem instantiated at the final state of
the concrete two-caller run (create, join, settle with token `T`, two
resumptions). -/
theorem C1_single_flight_witness :
    (∀ p q : Nat, wit5.promises[p]? = some none →
        wit5.promises[q]? = some none → p = q) ∧
    (∀ (i j p : Nat) (o o' : Outcome),
        wit5.callers[i]? = some (CallerSt.done p o) →
        wit5.callers[j]? = some (CallerSt.done p o') → o = o') ∧
    (∀ (i : Nat) (s' : GState), wit5.refreshPromise.isSome = true →
        Step (Label.enter i) wit5 s' → s'.promises = wit5.promises) ∧
    (∀ (i : Nat) (s' : GState), Step (Label.resume i) wit5 s' →
        s'.refreshPromise = none) :=
  C1_single_flight 2 wit5 wit_reach

end SingleFlight

namespace Api

/-- C2: A call that fails with a 401 and has not been retried is marked
retried and, when the awaited refresh yields a new token, is re-issued
exactly once with that token; a call whose second attempt also fails with a
401 is rejected, not retried again (the error handler with the `_retry`
flag set always rejects); and no run of the gateway makes more than two
network attempts. -/
theorem C2_retry_once (first second : CallResult) (refresh : RefreshResult) :
    (gatewayCall first second refresh).attempts ≤ 2 ∧
    (first = CallResult.unauthorized →
        (handleResponseError true false refresh).retried = true) ∧
    (∀ t : String, first = CallResult.unauthorized →
        refresh = RefreshResult.token t →
        (gatewayCall first second refresh).retriedWith = some t) ∧
    (∀ t : String, first = CallResult.unauthorized →
        refresh = RefreshResult.token t → second = CallResult.unauthorized →
        (gatewayCall first second refresh).final = FinalOutcome.rejected ∧
        (gatewayCall first second refresh).attempts = 2) ∧
    (handleResponseError true true refresh).action = ErrAction.reject := by
  cases first <;> cases second <;> cases refresh <;>
    simp [gatewayCall, handleResponseError]

/-- C2 witness: a call that is 401 twice around a successful refresh with
token `T` is retried once with `T` and then rejected after two attempts. -/
theorem C2_retry_once_witness :
    (gatewayCall CallResult.unauthorized CallResult.unauthorized
        (RefreshResult.token "T")).attempts ≤ 2 ∧
    (gatewayCall CallResult.unauthorized CallResult.unauthorized
        (RefreshResult.token "T")).retriedWith = some "T" ∧
    (gatewayCall CallResult.unauthorized CallResult.unauthorized
        (RefreshResult.token "T")).final = FinalOutcome.rejected := by
  have h := C2_retry_once CallResult.unauthorized CallResult.unauthorized
      (RefreshResult.token "T")
  exact ⟨h.1, h.2.2.1 "T" rfl rfl, (h.2.2.2.1 "T" rfl rfl rfl).1⟩

end Api

namespace Api

/-- C3 counterexample: with an expired stored credential (expiry 50 at time
100) and a refresh that would succeed with token `new`, the spec's
`getUsableAccessToken` returns `new`, but the code's token-lookup step
(`getValidToken`, as used by the request interceptor) returns absent — it
consults no refresh at all — and the request proceeds with no header. -/
theorem C3_counterexample :
    getValidToken 100 stC3 = none ∧
    specGetUsableAccessToken 100 stC3 (some "new") = some "new" ∧
    getValidToken 100 stC3 ≠ specGetUsableAccessToken 100 stC3 (some "new") ∧
    requestPhase 100 stC3 = RequestPhase.proceed none := by
  refine ⟨rfl, rfl, ?_, rfl⟩
  simp [getValidToken, specGetUsableAccessToken, stC3, isTokenExpired]

/-- C3 (amended): the gateway's token-lookup step returns the stored access
token when the stored credential is valid, and absent when the credential is
absent or invalid (stored record missing, access token field missing, or
token expired); it never triggers a refresh — in every case the request
proceeds (with or without a header), and refresh happens only reactively in
the response path. -/
theorem C3_amended (now : Int) (st : Storage) :
    (∀ (toks : StoredTokens) (a : String), st.easyedit_tokens = some toks →
        toks.access_token = some a → isTokenExpired now toks = false →
        getValidToken now st = some a ∧
        requestPhase now st = RequestPhase.proceed (some ("Bearer " ++ a))) ∧
    (st.easyedit_tokens = none →
        getValidToken now st = none ∧
        requestPhase now st = RequestPhase.proceed none) ∧
    (∀ toks : StoredTokens, st.easyedit_tokens = some toks →
        toks.access_token = none ∨ isTokenExpired now toks = true →
        getValidToken now st = none ∧
        requestPhase now st = RequestPhase.proceed none) := by
  refine ⟨?_, ?_, ?_⟩
  · intro toks a htoks ha hexp
    have hget : getValidToken now st = some a := by
      simp [getValidToken, htoks, ha, hexp]
    exact ⟨hget, by simp [requestPhase, hget]⟩
  · intro habs
    have hget : getValidToken now st = none := by
      simp [getValidToken, habs]
    exact ⟨hget, by simp [requestPhase, hget]⟩
  · intro toks htoks hbad
    have hget : getValidToken now st = none := by
      rcases hbad with ha | hexp
      · simp [getValidToken, htoks, ha]
      · cases hacc : toks.access_token with
        | none => simp [getValidToken, htoks, hacc]
        | some a => simp [getValidToken, htoks, hacc, hexp]
    exact ⟨hget, by simp [requestPhase, hget]⟩

/-- C3 amended witness: a valid stored credential (expiry 200 at time 100)
is returned and attached as a bearer header; an expired one (expiry 50 at
time 100) yields absent and the request proceeds with no header. -/
theorem C3_amended_witness :
    (getValidToken 100 stC3v = some "tok" ∧
     requestPhase 100 stC3v =
       RequestPhase.proceed (some ("Bearer " ++ "tok"))) ∧
    (getValidToken 100 stC3 = none ∧
     requestPhase 100 stC3 = RequestPhase.proceed none) :=
  ⟨(C3_amended 100 stC3v).1 ⟨some "tok", some "r", some 200⟩ "tok" rfl rfl rfl,
   (C3_amended 100 stC3).2.2 ⟨some "old", some "r", some 50⟩ rfl (Or.inr rfl)⟩

/-- C4 counterexample: a refresh attempt against a stored credential record
with no `refresh_token` field fails for its caller (yields no token), yet
clears nothing — both the credential record and the identity record are
still present afterwards. -/
theorem C4_counterexample :
    (performTokenRefresh stC4 RefreshNet.err).1 = RefreshResult.noToken ∧
    (performTokenRefresh stC4 RefreshNet.err).2.easyedit_tokens ≠ none ∧
    (performTokenRefresh stC4 RefreshNet.err).2.easyedit_user ≠ none := by
  refine ⟨rfl, ?_, ?_⟩ <;> simp [performTokenRefresh, stC4]

/-- C4 (amended): after every logout, and after every refresh whose network
call fails (the thrown path of `performTokenRefresh`), both the credential
record and the identity record are absent — in React state and in storage —
never one without the other; a refresh attempt that aborts before the
network call because the stored record or its refresh token is missing
yields no token but leaves storage untouched. -/
theorem C4_amended :
    (∀ (s : Auth.AuthState) (st : Auth.AuthStorage),
        (Auth.logout s st).1.tokens = none ∧
        (Auth.logout s st).1.user = none ∧
        (Auth.logout s st).2.tokens = none ∧
        (Auth.logout s st).2.user = none) ∧
    (∀ (st : Storage) (net : RefreshNet),
        (performTokenRefresh st net).1 = RefreshResult.threw →
        (performTokenRefresh st net).2.easyedit_tokens = none ∧
        (performTokenRefresh st net).2.easyedit_user = none) ∧
    (∀ (st : Storage) (net : RefreshNet),
        (performTokenRefresh st net).1 = RefreshResult.noToken →
        (performTokenRefresh st net).2 = st) := by
  refine ⟨fun s st => ⟨rfl, rfl, rfl, rfl⟩, ?_, ?_⟩
  · intro st net hthrew
    match hst : st.easyedit_tokens with
    | none => simp [performTokenRefresh, hst] at hthrew
    | some toks =>
      match hrt : toks.refresh_token with
      | none => simp [performTokenRefresh, hst, hrt] at hthrew
      | some rt =>
        cases net with
        | ok a r e => simp [performTokenRefresh, hst, hrt] at hthrew
        | err => simp [performTokenRefresh, hst, hrt]
  · intro st net hno
    match hst : st.easyedit_tokens with
    | none => simp [performTokenRefresh, hst]
    | some toks =>
      match hrt : toks.refresh_token with
      | none => simp [performTokenRefresh, hst, hrt]
      | some rt =>
        cases net with
        | ok a r e => simp [performTokenRefresh, hst, hrt] at hno
        | err => simp [performTokenRefresh, hst, hrt] at hno

/-- C4 amended witness: a thrown refresh against a full session clears both
storage keys, and logout clears state and storage. -/
theorem C4_amended_witness :
    ((performTokenRefresh stC4w RefreshNet.err).2.easyedit_tokens = none ∧
     (performTokenRefresh stC4w RefreshNet.err).2.easyedit_user = none) ∧
    (Auth.logout ⟨none, none, none, false⟩ ⟨none, none⟩).1.tokens = none :=
  ⟨C4_amended.2.1 stC4w RefreshNet.err rfl, (C4_amended.1 _ _).1⟩

/-- C9 counterexample: with the session cleared (both storage keys absent),
a subsequent outbound call is not rejected before the network — the request
interceptor lets it proceed, merely without an `Authorization` header. -/
theorem C9_counterexample :
    requestPhase 0 stC9 = RequestPhase.proceed none ∧
    requestPhase 0 stC9 ≠ RequestPhase.reject := by
  refine ⟨rfl, ?_⟩
  simp [requestPhase, getValidToken, stC9]

/-- C9 (amended): after the session has been cleared, any subsequent
outbound call made with no stored credential proceeds to the network
without an `Authorization` header; it is not rejected client-side before a
network attempt. -/
theorem C9_amended (now : Int) (st : Storage)
    (h : st.easyedit_tokens = none) :
    requestPhase now st = RequestPhase.proceed none := by
  simp [requestPhase, getValidToken, h]

/-- C9 amended witness: the cleared-session storage at time 0. -/
theorem C9_amended_witness :
    requestPhase 0 stC9 = RequestPhase.proceed none :=
  C9_amended 0 stC9 rfl

end Api

/-- C7: credential validity is fail-closed at the expiry boundary: a stored
credential whose `expires_at` equals the current time is invalid and one
whose `expires_at` is strictly greater is valid (`isTokenExpired` in
`api.ts`); and the mount-time load in `AuthContext.tsx` discards an
already-expired credential (clearing both storage keys) instead of
restoring it, while restoring a strictly-future one. -/
theorem C7_expiry_boundary (now e : Int) (toks : Api.StoredTokens)
    (he : toks.expires_at = some e) :
    (e = now → Api.isTokenExpired now toks = true) ∧
    (now < e → Api.isTokenExpired now toks = false) ∧
    (∀ (atoks : Auth.AuthTokens) (u : Auth.User), atoks.expires_at ≤ now →
        Auth.loadSession now ⟨some atoks, some u⟩ =
          (⟨none, none, none, false⟩, ⟨none, none⟩)) ∧
    (∀ (atoks : Auth.AuthTokens) (u : Auth.User), now < atoks.expires_at →
        (Auth.loadSession now ⟨some atoks, some u⟩).1.tokens = some atoks ∧
        (Auth.loadSession now ⟨some atoks, some u⟩).1.user = some u) := by
  refine ⟨?_, ?_, ?_, ?_⟩
  · intro heq
    subst heq
    simp [Api.isTokenExpired, he]
  · intro hlt
    simp [Api.isTokenExpired, he]
    omega
  · intro atoks u hle
    simp [Auth.loadSession, not_lt.mpr hle]
  · intro atoks u hlt
    simp [Auth.loadSession, hlt]

/-- C7 witness: at time 100, expiry 100 is invalid, expiry 101 is valid, and
the load effect discards an expiry-100 credential while restoring an
expiry-101 one. -/
theorem C7_expiry_boundary_witness :
    Api.isTokenExpired 100 ⟨some "a", some "r", some 100⟩ = true ∧
    Api.isTokenExpired 100 ⟨some "a", some "r", some 101⟩ = false ∧
    Auth.loadSession 100 ⟨some ⟨"a", "r", 100⟩, some ⟨"u1", "u@e", "admin", true⟩⟩ =
      (⟨none, none, none, false⟩, ⟨none, none⟩) ∧
    (Auth.loadSession 100
        ⟨some ⟨"a", "r", 101⟩, some ⟨"u1", "u@e", "admin", true⟩⟩).1.tokens =
      some ⟨"a", "r", 101⟩ := by
  have h1 := C7_expiry_boundary 100 100 ⟨some "a", some "r", some 100⟩ rfl
  have h2 := C7_expiry_boundary 100 101 ⟨some "a", some "r", some 101⟩ rfl
  refine ⟨h1.1 rfl, h2.2.1 (by norm_num), ?_, ?_⟩
  · exact h1.2.2.1 ⟨"a", "r", 100⟩ ⟨"u1", "u@e", "admin", true⟩ (by norm_num)
  · exact (h2.2.2.2 ⟨"a", "r", 101⟩ ⟨"u1", "u@e", "admin", true⟩
      (by norm_num)).1

namespace Auth

/-- C10: login is atomic — when any step of the login flow fails (token
issuance or identity verification), neither the credential nor the identity
is written to state or storage; starting from an unauthenticated session,
the session stays unauthenticated and only the error field is set. -/
theorem C10_login_atomic (env : LoginEnv) (s : AuthState) (st : AuthStorage)
    (hfail : loginFails env) (ht : s.tokens = none) (hu : s.user = none) :
    (login env s st).1.tokens = none ∧
    (login env s st).1.user = none ∧
    (login env s st).2 = st ∧
    ∃ m, (login env s st).1.error = some m := by
  rcases hfail with ⟨m, hm⟩ | ⟨toks, m, htoks, hv⟩
  · refine ⟨?_, ?_, ?_, ⟨m, ?_⟩⟩ <;> simp [login, hm, ht, hu]
  · refine ⟨?_, ?_, ?_, ⟨m, ?_⟩⟩ <;> simp [login, htoks, hv, ht, hu]

/-- C10 witness: a failing token issuance from an unauthenticated session
leaves the session unauthenticated, storage untouched, and the error set. -/
theorem C10_login_atomic_witness :
    (login envFail ⟨none, none, none, false⟩ ⟨none, none⟩).1.tokens = none ∧
    (login envFail ⟨none, none, none, false⟩ ⟨none, none⟩).1.user = none ∧
    (login envFail ⟨none, none, none, false⟩ ⟨none, none⟩).2 = ⟨none, none⟩ ∧
    ∃ m, (login envFail ⟨none, none, none, false⟩ ⟨none, none⟩).1.error =
        some m :=
  C10_login_atomic envFail ⟨none, none, none, false⟩ ⟨none, none⟩
    (Or.inl ⟨"boom", rfl⟩) rfl rfl

end Auth

namespace Polling

/-- C5 counterexample: with two fetches for job A in flight (a fetch may take
longer than the 2-second tick cadence), the first delivery of `completed`
cancels the interval and fires the job-history refresh — but the second
in-flight fetch then also delivers `completed` and fires the signal a second
time for the same terminal transition of job A. -/
theorem C5_counterexample :
    PReachable c5s4 ∧
    c5s4.currentJob = some ("A", Status.completed) ∧
    c5s4.intervals = [] ∧ c5s4.signals = 1 ∧
    PStep (PLabel.deliverOk 1 Status.completed) c5s4 c5s5 ∧
    c5s5.signals = 2 := by
  refine ⟨c5_reach4, rfl, rfl, rfl, ?_, rfl⟩
  exact PStep.deliverOk c5s4 1 "A" Status.completed (by simp [c5s4])

/-- C5 (amended): once a fetched terminal status (`completed` or `failed`)
is delivered, the polling interval is cancelled (no interval remains) and
the job-history refresh fires at that delivery; if no other status fetch is
then in flight, nothing but a user-initiated new job can step the system, so
no further status fetch occurs and the signal has fired exactly once for the
transition — but a fetch already in flight at the terminal delivery is not
cancelled and triggers the signal again when it delivers. -/
theorem C5_amended (s s' : PState) (f : Nat) (st : Status)
    (hr : PReachable s) (ht : isTerminal st = true)
    (hstep : PStep (PLabel.deliverOk f st) s s') :
    s'.intervals = [] ∧ s'.signals = s.signals + 1 ∧
    (s'.inflight = [] →
        ∀ (l : PLabel) (s'' : PState), PStep l s' s'' →
        ∃ j, l = PLabel.setJob j) := by
  have hinv := pollInv_reachable hr
  cases hstep with
  | deliverOk _ f j st hm =>
    have hst : ¬(st = Status.processing ∨ st = Status.uploaded) := by
      cases st <;> simp_all [isTerminal]
    have hmid :
        PollInv
          { s with inflight := s.inflight.filter (fun x => x.1 ≠ f),
                   currentJob := some (j, st),
                   signals :=
                     if isTerminal st then s.signals + 1 else s.signals } := by
      rcases hinv with h | ⟨h, jj, hi, hc⟩
      · left
        exact h
      · right
        exact ⟨h, jj, hi, hc⟩
    have hcl := clear_own _ hmid
    have hints :
        (effectCycle
          { s with inflight := s.inflight.filter (fun x => x.1 ≠ f),
                   currentJob := some (j, st),
                   signals :=
                     if isTerminal st then s.signals + 1 else s.signals
          }).intervals = [] := by
      simp [effectCycle, hst]
      simpa using hcl
    refine ⟨hints, ?_, ?_⟩
    · simp [effectCycle, hst, ht]
    · intro hinf l s'' hstep'
      cases hstep' with
      | tick _ h j' hm' =>
        rw [hints] at hm'
        simp at hm'
      | deliverOk _ f' j' st' hm' =>
        rw [hinf] at hm'
        simp at hm'
      | deliverErr _ f' j' hm' =>
        rw [hinf] at hm'
        simp at hm'
      | setJob _ j' => exact ⟨j', rfl⟩

/-- C5 amended witness: delivering `completed` for job A at the reachable
state with two in-flight fetches cancels the interval and bumps the signal
count once. -/
theorem C5_amended_witness :
    c5s4.intervals = [] ∧ c5s4.signals = c5s3.signals + 1 := by
  have h := C5_amended c5s3 c5s4 0 Status.completed c5_reach3 rfl
    (PStep.deliverOk c5s3 0 "A" Status.completed (by simp [c5s3]))
  exact ⟨h.1, h.2.1⟩

/-- C6 counterexample: while job A is polled, a tick issues a fetch; the
user then starts job B — A's interval is cancelled and exactly B's interval
is active — but A's in-flight fetch is then delivered, overwriting the
observed job with A and even restarting an interval for A: a stale tick of
job A is delivered after polling for job B began. -/
theorem C6_counterexample :
    PReachable c6s3 ∧
    c6s3.intervals = [(1, "B")] ∧
    c6s3.currentJob = some ("B", Status.uploaded) ∧
    PStep (PLabel.deliverOk 0 Status.processing) c6s3 c6s4 ∧
    c6s4.currentJob = some ("A", Status.processing) ∧
    c6s4.intervals = [(2, "A")] := by
  refine ⟨c6_reach3, rfl, rfl, ?_, rfl, rfl⟩
  exact PStep.deliverOk c6s3 0 "A" Status.processing (by simp [c6s3])

/-- C6 (amended): starting polling for job B while polling for job A is
active first cancels A's interval: immediately afterwards exactly one
interval is active, and it is B's with a fresh handle (so zero intervals for
A).  However, a status fetch of job A already issued by A's interval is not
cancelled, and may still be delivered after polling for job B begins. -/
theorem C6_amended (s s' : PState) (j : String) (hr : PReachable s)
    (hstep : PStep (PLabel.setJob j) s s') :
    s'.intervals = [(s.nextH, j)] ∧ s'.cleanupHandle = some s.nextH := by
  have hinv := pollInv_reachable hr
  cases hstep with
  | setJob _ _ =>
    have hmid : PollInv { s with currentJob := some (j, Status.uploaded) } := by
      rcases hinv with h | ⟨h, jj, hi, hc⟩
      · left
        exact h
      · right
        exact ⟨h, jj, hi, hc⟩
    have hcl := clear_own _ hmid
    constructor
    · simp [effectCycle]
      simpa using hcl
    · simp [effectCycle]

/-- C6 amended witness: starting job B at the reachable state where job A is
polled leaves exactly B's fresh interval active. -/
theorem C6_amended_witness :
    c6s3.intervals = [(c6s2.nextH, "B")] ∧
    c6s3.cleanupHandle = some c6s2.nextH :=
  C6_amended c6s2 c6s3 "B" c6_reach2 (PStep.setJob c6s2 "B")

/-- C8: a polling tick whose status fetch fails with a transient error only
logs it: the intervals, the observed job and the signal count are unchanged,
and every interval that was active still ticks afterwards — the polling loop
is not stopped and keeps observing the same job. -/
theorem C8_transient_error (s s' : PState) (f : Nat)
    (hstep : PStep (PLabel.deliverErr f) s s') :
    s'.intervals = s.intervals ∧ s'.currentJob = s.currentJob ∧
    s'.signals = s.signals ∧ s'.cleanupHandle = s.cleanupHandle ∧
    (∀ (h : Nat) (j : String), (h, j) ∈ s.intervals →
        PStep (PLabel.tick h) s'
          { s' with inflight := s'.inflight ++ [(s'.nextF, j)],
                    nextF := s'.nextF + 1 }) := by
  cases hstep with
  | deliverErr _ f j hm =>
    refine ⟨rfl, rfl, rfl, rfl, ?_⟩
    intro h j' hmem
    exact PStep.tick _ h j' hmem

/-- C8 witness: a failed fetch for job A at a state with one active interval
leaves the interval, the observed job and the signal count unchanged, and
the interval still ticks. -/
theorem C8_transient_error_witness :
    c8s2.intervals = c8s1.intervals ∧ c8s2.currentJob = c8s1.currentJob ∧
    c8s2.signals = c8s1.signals ∧
    PStep (PLabel.tick 0) c8s2
      { c8s2 with inflight := c8s2.inflight ++ [(c8s2.nextF, "A")],
                  nextF := c8s2.nextF + 1 } := by
  have h := C8_transient_error c8s1 c8s2 0
    (PStep.deliverErr c8s1 0 "A" (by simp [c8s1]))
  exact ⟨h.1, h.2.1, h.2.2.1, h.2.2.2.2 0 "A" (by simp [c8s1])⟩

end Polling
